import Mathlib

/-!
# Translation-Validator: shallow embedding of the data-access layer

This file embeds the data-access layer of the Translation-Validator
repository in Lean 4 and proves properties of it.

The repository ships several interchangeable storage backends exposing one
operation set over translation and user records:

* `BrowserDb` — the localStorage implementation (`browser-db.js`, the file
  whose header reads "Browser implementation using localStorage").
* `Db` — the IndexedDB implementation (`src/client/src/utils/db.js`).
* `SqliteDb` — the better-sqlite3 implementation
  (`src/client/src/utils/sqlite-db.js`).

Modelling conventions, uniform across the file:

* A backend's translation table is a `List Translation`; backends whose
  storage assigns auto-increment keys (IndexedDB, SQLite) carry the next
  key in a state structure.
* `Date.now()` / `new Date().toISOString()` are supplied explicitly: each
  operation takes the clock values as parameters (`now : Nat` for the
  millisecond counter, `nowStr : String` for the ISO string), held fixed
  for the duration of one call.
* `Math.random()` in `getRandomPendingTranslation` is supplied as an
  explicit index `k` standing for `Math.floor(Math.random() * len)`,
  so a uniformly distributed `Math.random()` yields a uniformly
  distributed `k < len`.
* A JavaScript object missing a field is modelled by `Option.none`
  (for text fields) resp. `false` (for the boolean
  `hasBeenCorrected`); a field explicitly set to `null` is also `none`,
  which is observationally faithful here (the code only reads these
  fields through `x || ''`-style coercions and spreads).
* A thrown `Error` is modelled with `Except String`; an operation that
  throws before writing returns the unchanged store next to the error.
-/

/-- A translation record, as built by the import paths of the three
backends. `validatedBy`/`correctedBy` are optional text (JS `null` or an
absent field are both `none`). -/
structure Translation where
  id : Nat
  french : String
  wolof : String
  status : String
  validatedBy : Option String
  correctedBy : Option String
  hasBeenCorrected : Bool
  originalWolof : String
  lastUpdated : String
deriving DecidableEq, Repr

/-- A reviewer record: `{ id, name }`. -/
structure User where
  id : Nat
  name : String
deriving DecidableEq, Repr

/-- The partial-fields object passed to `updateTranslation(id, updates)`.
`none` means the field is absent from the JS object; the application only
ever passes (subsets of) these mutable fields. -/
structure TranslationUpdates where
  french : Option String := none
  wolof : Option String := none
  status : Option String := none
  validatedBy : Option String := none
  correctedBy : Option String := none
  hasBeenCorrected : Option Bool := none
deriving DecidableEq, Repr

/-- JS object spread `{...t, ...updates, lastUpdated: new Date().toISOString()}`:
every field present in `updates` overrides the record's field, `lastUpdated`
is always refreshed, `id`/`originalWolof` are not among the partial fields. -/
def applyUpdates (t : Translation) (u : TranslationUpdates) (nowStr : String) : Translation :=
  { id := t.id
    french := u.french.getD t.french
    wolof := u.wolof.getD t.wolof
    status := u.status.getD t.status
    validatedBy := match u.validatedBy with | some v => some v | none => t.validatedBy
    correctedBy := match u.correctedBy with | some v => some v | none => t.correctedBy
    hasBeenCorrected := u.hasBeenCorrected.getD t.hasBeenCorrected
    originalWolof := t.originalWolof
    lastUpdated := nowStr }

/-- Split a character list at every occurrence of the separator `c`;
`JS str.split(c)` on the underlying characters (an empty input yields one
empty field, separators at the ends yield empty fields, exactly as in JS). -/
def splitOnChar (c : Char) : List Char → List (List Char)
  | [] => [[]]
  | x :: xs =>
    let r := splitOnChar c xs
    if x = c then [] :: r
    else
      match r with
      | [] => [[x]]
      | h :: t => (x :: h) :: t

/-- Strip whitespace from both ends of a character list;
`JS str.trim()` (modelled over ASCII whitespace). -/
def trimChars (l : List Char) : List Char :=
  ((l.dropWhile Char.isWhitespace).reverse.dropWhile Char.isWhitespace).reverse

/-- `str.trim()` as a `String` operation. -/
def jsTrim (s : String) : String :=
  String.mk (trimChars s.data)

/-- `str.split(c)` as a `String` operation. -/
def jsSplit (c : Char) (s : String) : List String :=
  (splitOnChar c s.data).map String.mk

/-- The CSV row parser shared verbatim by the three import implementations:
`const line = lines[i].trim(); if (line) { const parts = line.split(',');
if (parts.length >= 2) { const wolof = parts[0].trim();
const french = parts.slice(1).join(',').trim(); if (french && wolof) ... } }`.
Returns `some (french, wolof)` exactly when the row passes all guards. -/
def parseCSVLine (l : String) : Option (String × String) :=
  let line := jsTrim l
  if line = "" then none
  else
    let parts := jsSplit ',' line
    if parts.length ≥ 2 then
      let wolof := jsTrim (parts.headD "")
      let french := jsTrim (String.intercalate "," parts.tail)
      if french ≠ "" ∧ wolof ≠ "" then some (french, wolof) else none
    else none

/-- The record object pushed by import:
`{id, french, wolof, status: 'pending', validatedBy: null,
originalWolof: wolof, lastUpdated}` (SQLite additionally defaults
`correctedBy` to NULL and `hasBeenCorrected` to 0, which coincides with
the absent JS fields of the other two backends). -/
def mkImportedRecord (id : Nat) (french wolof nowStr : String) : Translation :=
  { id, french, wolof, status := "pending", validatedBy := none, correctedBy := none,
    hasBeenCorrected := false, originalWolof := wolof, lastUpdated := nowStr }

/-- Find the first record whose `id` matches, replace it by the merged
record, and return the new list together with the merged record. `none`
when no record has that id. Shared skeleton of the three backends'
`updateTranslation` (ids are unique keys in IndexedDB/SQLite, and
`findIndex` takes the first match in the localStorage code). -/
def updateById (id : Nat) (u : TranslationUpdates) (nowStr : String) :
    List Translation → Option (List Translation × Translation)
  | [] => none
  | t :: rest =>
    if t.id = id then
      some (applyUpdates t u nowStr :: rest, applyUpdates t u nowStr)
    else
      match updateById id u nowStr rest with
      | none => none
      | some (rest', upd) => some (t :: rest', upd)

/-- The CSV serialisation loop shared verbatim by the three
`exportValidatedTranslationsToCSV` implementations: starts from the header
line, then appends per record
`["${wolof}" quoted, "${french}" quoted, status, validatedBy || '',
correctedBy || '', lastUpdated].join(',') + '\n'`. -/
def exportCSVOf (validated : List Translation) : String :=
  validated.foldl
    (fun csvContent t =>
      csvContent ++
        String.intercalate ","
          ["\"" ++ t.wolof ++ "\"", "\"" ++ t.french ++ "\"", t.status,
            t.validatedBy.getD "", t.correctedBy.getD "", t.lastUpdated] ++ "\n")
    "Wolof,French,Status,ValidatedBy,CorrectedBy,LastUpdated\n"

/-- One CSV data row of the export, in closed form. -/
def exportRow (t : Translation) : String :=
  "\"" ++ t.wolof ++ "\",\"" ++ t.french ++ "\"," ++ t.status ++ "," ++
    t.validatedBy.getD "" ++ "," ++ t.correctedBy.getD "" ++ "," ++ t.lastUpdated ++ "\n"

namespace BrowserDb

/-!
## localStorage backend (`browser-db.js`)

State is the parsed `translations_data` array, a `List Translation`; the
user roster is the parsed `users_data` array, a `List User`.
-/

/-- `translations.some(t => t.french === french && t.wolof === wolof)`,
reading the committed store. Note it compares the *current* `french` and
`wolof` fields, not `originalWolof`. (The SQLite backend's
`UNIQUE(french, wolof) ... INSERT OR IGNORE` enforces the same predicate
against its live table.) -/
def translationExists (store : List Translation) (french wolof : String) : Bool :=
  store.any fun t => t.french = french ∧ t.wolof = wolof

/-- The import loop of `importTranslationsFromCSV`: rows are parsed by
`parseCSVLine`; the duplicate check runs `translationExists` against the
*committed* store `orig` (localStorage is only rewritten after the loop,
so rows pushed during this call are not seen by the check); a fresh row is
pushed with `id = Date.now() + addedCount`. -/
def importLoop (orig : List Translation) (now : Nat) (nowStr : String) :
    List String → Nat → List Translation
  | [], _ => []
  | l :: rest, addedCount =>
    match parseCSVLine l with
    | none => importLoop orig now nowStr rest addedCount
    | some (french, wolof) =>
      if translationExists orig french wolof then
        importLoop orig now nowStr rest addedCount
      else
        mkImportedRecord (now + addedCount) french wolof nowStr ::
          importLoop orig now nowStr rest (addedCount + 1)

/-- `importTranslationsFromCSV(csvData)`: splits on `'\n'`, skips the
header row (`i` starts at 1), runs the import loop, and writes back the
store array (the original records followed by the pushed ones). -/
def importTranslationsFromCSV (store : List Translation) (csvData : String)
    (now : Nat) (nowStr : String) : List Translation :=
  store ++ importLoop store now nowStr ((jsSplit '\n' csvData).drop 1) 0

/-- `getAllTranslations()`: returns the parsed store. -/
def getAllTranslations (store : List Translation) : List Translation :=
  store

/-- The pending pool `translations.filter(t => t.status === 'pending')`. -/
def pendingOf (store : List Translation) : List Translation :=
  store.filter fun t => t.status = "pending"

/-- `getRandomPendingTranslation()`: `null` when no pending record exists,
else `pendingTranslations[Math.floor(Math.random() * len)]`; the random
draw is the explicit index `k`. -/
def getRandomPendingTranslation (store : List Translation) (k : Nat) : Option Translation :=
  let pendingTranslations := pendingOf store
  if pendingTranslations.length = 0 then none
  else pendingTranslations[k]?

/-- `updateTranslation(id, updates)`: `findIndex` on `id`; throws
`Translation with ID ... not found` (before any write, so the store
component is returned untouched) when absent; otherwise replaces the
record by `{...old, ...updates, lastUpdated: now}` and saves. -/
def updateTranslation (store : List Translation) (id : Nat) (u : TranslationUpdates)
    (nowStr : String) : List Translation × Except String Translation :=
  match updateById id u nowStr store with
  | none => (store, Except.error ("Translation with ID " ++ toString id ++ " not found"))
  | some (store', upd) => (store', Except.ok upd)

/-- `isDatabaseEmpty()`: `translations.length === 0`. -/
def isDatabaseEmpty (store : List Translation) : Bool :=
  store.length = 0

/-- `getValidatedTranslations()`: `filter(t => t.status === 'validated')`. -/
def getValidatedTranslations (store : List Translation) : List Translation :=
  store.filter fun t => t.status = "validated"

/-- The three default reviewer names. -/
def defaultUsers : List String := ["Alwaly", "Serge", "Matar"]

/-- One iteration of the seeding loop of the user-initialisation
operation: `if (!users.some(u => u.name === name)) users.push({id:
Date.now() + users.length, name})` — the membership check runs against
the evolving array. -/
def initUserStep (now : Nat) (users : List User) (name : String) : List User :=
  if users.any (fun u => u.name = name) then users
  else users ++ [{ id := now + users.length, name }]

/-- `initializeUsers()` (named `initUsers` here): folds the seeding step
over the three default names. -/
def initUsers (users : List User) (now : Nat) : List User :=
  defaultUsers.foldl (initUserStep now) users

/-- `getUsers()`: returns the parsed roster. -/
def getUsers (users : List User) : List User :=
  users

/-- `exportValidatedTranslationsToCSV()`. -/
def exportValidatedTranslationsToCSV (store : List Translation) : String :=
  exportCSVOf (getValidatedTranslations store)

end BrowserDb

namespace Db

/-!
## IndexedDB backend (`src/client/src/utils/db.js`)

The object store has `keyPath: 'id', autoIncrement: true`; state is the
record list plus the next auto-increment key.
-/

/-- IndexedDB translations object store: the records plus the
auto-increment key counter. -/
structure DbState where
  recs : List Translation
  nextId : Nat
deriving DecidableEq, Repr

/-- A fresh IndexedDB database (no records, keys start at 1). -/
def emptyState : DbState := { recs := [], nextId := 1 }

/-- The import loop of `importTranslationsFromCSV`: rows are parsed by
`parseCSVLine` and added unconditionally — this backend performs **no**
duplicate check (`if (french && wolof) { store.add(...) }`); ids come
from the auto-increment counter. -/
def importLoop (nowStr : String) : List String → DbState → DbState
  | [], st => st
  | l :: rest, st =>
    match parseCSVLine l with
    | none => importLoop nowStr rest st
    | some (french, wolof) =>
      importLoop nowStr rest
        { recs := st.recs ++ [mkImportedRecord st.nextId french wolof nowStr],
          nextId := st.nextId + 1 }

/-- `importTranslationsFromCSV(csvData)`: splits on `'\n'`, skips the
header row, adds every parsed row. -/
def importTranslationsFromCSV (st : DbState) (csvData : String) (nowStr : String) : DbState :=
  importLoop nowStr ((jsSplit '\n' csvData).drop 1) st

/-- `getAllTranslations()`: `store.getAll()`. -/
def getAllTranslations (st : DbState) : List Translation :=
  st.recs

/-- `getRandomPendingTranslation()`: same code as the localStorage
backend, over this store's records. -/
def getRandomPendingTranslation (st : DbState) (k : Nat) : Option Translation :=
  let pendingTranslations := st.recs.filter fun t => t.status = "pending"
  if pendingTranslations.length = 0 then none
  else pendingTranslations[k]?

/-- `updateTranslation(id, updates)`: `store.get(id)`; when the key is
present, `store.put({...translation, ...updates, lastUpdated})` replaces
the record. When the key is absent, `getRequest.result` is `undefined`,
the spread produces an object holding only the update fields plus
`lastUpdated`, and `put` **inserts it as a new record** under a fresh
auto-increment key (missing JS fields modelled as `""` / `none` /
`false`) — this backend never throws a NotFound error. -/
def updateTranslation (st : DbState) (id : Nat) (u : TranslationUpdates)
    (nowStr : String) : DbState × Translation :=
  match updateById id u nowStr st.recs with
  | some (recs', upd) => ({ recs := recs', nextId := st.nextId }, upd)
  | none =>
    let orphan : Translation :=
      { id := st.nextId
        french := u.french.getD ""
        wolof := u.wolof.getD ""
        status := u.status.getD ""
        validatedBy := u.validatedBy
        correctedBy := u.correctedBy
        hasBeenCorrected := u.hasBeenCorrected.getD false
        originalWolof := ""
        lastUpdated := nowStr }
    ({ recs := st.recs ++ [orphan], nextId := st.nextId + 1 }, orphan)

/-- `isDatabaseEmpty()`. -/
def isDatabaseEmpty (st : DbState) : Bool :=
  st.recs.length = 0

/-- `getValidatedTranslations()`. -/
def getValidatedTranslations (st : DbState) : List Translation :=
  st.recs.filter fun t => t.status = "validated"

/-- `exportValidatedTranslationsToCSV()`: identical serialisation code to
the localStorage backend. -/
def exportValidatedTranslationsToCSV (st : DbState) : String :=
  exportCSVOf (getValidatedTranslations st)

end Db

namespace SqliteDb

/-!
## SQLite backend (`src/client/src/utils/sqlite-db.js`)

Table `translations` with `id INTEGER PRIMARY KEY AUTOINCREMENT` and
`UNIQUE(french, wolof)`; state is the row list plus the next rowid.
-/

/-- The SQLite translations table: the rows plus the auto-increment
rowid counter. -/
structure SqState where
  recs : List Translation
  nextId : Nat
deriving DecidableEq, Repr

/-- A fresh in-memory database (no rows, rowids start at 1). -/
def emptyState : SqState := { recs := [], nextId := 1 }

/-- The import loop of `importTranslationsFromCSV`:
`INSERT OR IGNORE INTO translations (wolof, french, status, originalWolof,
lastUpdated) VALUES (?, ?, 'pending', ?, ?)` per parsed row — the
`UNIQUE(french, wolof)` constraint makes the insert a no-op exactly when
the **live table** (including rows inserted earlier in this same call)
already holds a row with that `(french, wolof)` pair. -/
def importLoop (nowStr : String) : List String → SqState → SqState
  | [], st => st
  | l :: rest, st =>
    match parseCSVLine l with
    | none => importLoop nowStr rest st
    | some (french, wolof) =>
      if BrowserDb.translationExists st.recs french wolof then
        importLoop nowStr rest st
      else
        importLoop nowStr rest
          { recs := st.recs ++ [mkImportedRecord st.nextId french wolof nowStr],
            nextId := st.nextId + 1 }

/-- `importTranslationsFromCSV(csvData)`: splits on `'\n'`, skips the
header row, runs the insert-or-ignore loop inside one transaction. -/
def importTranslationsFromCSV (st : SqState) (csvData : String) (nowStr : String) : SqState :=
  importLoop nowStr ((jsSplit '\n' csvData).drop 1) st

/-- `getAllTranslations()`: `SELECT * FROM translations`. -/
def getAllTranslations (st : SqState) : List Translation :=
  st.recs

/-- `getRandomPendingTranslation()`:
`SELECT * FROM translations WHERE status = 'pending' ORDER BY RANDOM()
LIMIT 1`, i.e. a uniformly random row of the pending pool (or `null`);
the random draw is the explicit index `k` into the pool. -/
def getRandomPendingTranslation (st : SqState) (k : Nat) : Option Translation :=
  let pendingRows := st.recs.filter fun t => t.status = "pending"
  if pendingRows.length = 0 then none
  else pendingRows[k]?

/-- `updateTranslation(id, updates)`: `SELECT ... WHERE id = ?`; throws
`Translation with ID ... not found` when absent (before any write);
otherwise `UPDATE translations SET <fields>, lastUpdated = ? WHERE id = ?`
(ids are the primary key, so exactly the targeted row changes). -/
def updateTranslation (st : SqState) (id : Nat) (u : TranslationUpdates)
    (nowStr : String) : SqState × Except String Translation :=
  match updateById id u nowStr st.recs with
  | none => (st, Except.error ("Translation with ID " ++ toString id ++ " not found"))
  | some (recs', upd) => ({ recs := recs', nextId := st.nextId }, Except.ok upd)

/-- `isDatabaseEmpty()`: `SELECT COUNT(*) ... === 0`. -/
def isDatabaseEmpty (st : SqState) : Bool :=
  st.recs.length = 0

/-- `getValidatedTranslations()`: `SELECT * ... WHERE status = 'validated'`. -/
def getValidatedTranslations (st : SqState) : List Translation :=
  st.recs.filter fun t => t.status = "validated"

/-- `exportValidatedTranslationsToCSV()`: identical serialisation code to
the localStorage backend. -/
def exportValidatedTranslationsToCSV (st : SqState) : String :=
  exportCSVOf (getValidatedTranslations st)

end SqliteDb

/-! ## Lemmas about the duplicate-check predicate -/

theorem translationExists_iff (store : List Translation) (f w : String) :
    BrowserDb.translationExists store f w = true ↔ ∃ t ∈ store, t.french = f ∧ t.wolof = w := by
  simp [BrowserDb.translationExists, List.any_eq_true]

theorem translationExists_append (S T : List Translation) (f w : String) :
    BrowserDb.translationExists (S ++ T) f w
      = (BrowserDb.translationExists S f w || BrowserDb.translationExists T f w) := by
  simp [BrowserDb.translationExists, List.any_append]

theorem translationExists_of_mem {store : List Translation} {t : Translation} {f w : String}
    (ht : t ∈ store) (hf : t.french = f) (hw : t.wolof = w) :
    BrowserDb.translationExists store f w = true :=
  (translationExists_iff store f w).mpr ⟨t, ht, hf, hw⟩

theorem translationExists_append_left {S : List Translation} (T : List Translation)
    {f w : String} (h : BrowserDb.translationExists S f w = true) :
    BrowserDb.translationExists (S ++ T) f w = true := by
  rw [translationExists_append, h, Bool.true_or]

theorem translationExists_append_right (S : List Translation) {T : List Translation}
    {f w : String} (h : BrowserDb.translationExists T f w = true) :
    BrowserDb.translationExists (S ++ T) f w = true := by
  rw [translationExists_append, h, Bool.or_true]

theorem translationExists_middle {S X : List Translation} (t : Translation)
    {f w : String} (h : BrowserDb.translationExists (S ++ X) f w = true) :
    BrowserDb.translationExists (S ++ t :: X) f w = true := by
  rcases (translationExists_iff _ f w).mp h with ⟨r, hr, hrf, hrw⟩
  refine (translationExists_iff _ f w).mpr ⟨r, ?_, hrf, hrw⟩
  rcases List.mem_append.mp hr with h' | h'
  · exact List.mem_append.mpr (Or.inl h')
  · exact List.mem_append.mpr (Or.inr (List.mem_cons_of_mem _ h'))

/-! ## Lemmas about the localStorage import loop -/

namespace BrowserDb

/-- If every row of `lines` that parses to a pair already exists in the
committed store, the import loop pushes nothing. -/
theorem importLoop_nil_of_all_exists (orig : List Translation) (now : Nat) (nowStr : String) :
    ∀ (lines : List String) (c : Nat),
      (∀ l ∈ lines, ∀ f w, parseCSVLine l = some (f, w) →
        translationExists orig f w = true) →
      importLoop orig now nowStr lines c = []
  | [], _, _ => rfl
  | l :: rest, c, h => by
    have hrest := fun l' hl' => h l' (List.mem_cons_of_mem _ hl')
    cases hp : parseCSVLine l with
    | none =>
      simp only [importLoop, hp]
      exact importLoop_nil_of_all_exists orig now nowStr rest c hrest
    | some fw =>
      obtain ⟨f, w⟩ := fw
      simp only [importLoop, hp]
      rw [if_pos (h l (List.mem_cons_self _ _) f w hp)]
      exact importLoop_nil_of_all_exists orig now nowStr rest c hrest

/-- After one import, every `(french, wolof)` pair parsed from some row of
`lines` is present in the store (skipped rows existed before, fresh rows
were pushed). -/
theorem translationExists_after_importLoop (orig : List Translation) (now : Nat)
    (nowStr : String) :
    ∀ (lines : List String) (c : Nat) (l f w : String),
      l ∈ lines → parseCSVLine l = some (f, w) →
      translationExists (orig ++ importLoop orig now nowStr lines c) f w = true
  | [], _, l, _, _, hl, _ => absurd hl (List.not_mem_nil l)
  | l0 :: rest, c, l, f, w, hl, hp => by
    rcases List.mem_cons.mp hl with rfl | hmem
    · simp only [importLoop, hp]
      cases he : translationExists orig f w with
      | true =>
        rw [if_pos rfl]
        exact translationExists_append_left _ he
      | false =>
        rw [if_neg (by simp [he])]
        exact translationExists_append_right orig
          (translationExists_of_mem (List.mem_cons_self _ _) rfl rfl)
    · cases hp0 : parseCSVLine l0 with
      | none =>
        simp only [importLoop, hp0]
        exact translationExists_after_importLoop orig now nowStr rest c l f w hmem hp
      | some fw0 =>
        obtain ⟨f0, w0⟩ := fw0
        simp only [importLoop, hp0]
        cases he0 : translationExists orig f0 w0 with
        | true =>
          rw [if_pos rfl]
          exact translationExists_after_importLoop orig now nowStr rest c l f w hmem hp
        | false =>
          rw [if_neg (by simp [he0])]
          exact translationExists_middle _
            (translationExists_after_importLoop orig now nowStr rest (c + 1) l f w hmem hp)

/-- A parsed row whose pair is absent from the committed store yields a
pushed record carrying that pair (its `originalWolof` being the imported
wolof). -/
theorem mem_importLoop_of_fresh (orig : List Translation) (now : Nat) (nowStr : String) :
    ∀ (lines : List String) (c : Nat) (l f w : String),
      l ∈ lines → parseCSVLine l = some (f, w) →
      translationExists orig f w = false →
      ∃ r ∈ importLoop orig now nowStr lines c,
        r.french = f ∧ r.wolof = w ∧ r.originalWolof = w
  | [], _, l, _, _, hl, _, _ => absurd hl (List.not_mem_nil l)
  | l0 :: rest, c, l, f, w, hl, hp, hne => by
    rcases List.mem_cons.mp hl with rfl | hmem
    · simp only [importLoop, hp]
      rw [if_neg (by simp [hne])]
      exact ⟨mkImportedRecord (now + c) f w nowStr, List.mem_cons_self _ _, rfl, rfl, rfl⟩
    · cases hp0 : parseCSVLine l0 with
      | none =>
        simp only [importLoop, hp0]
        exact mem_importLoop_of_fresh orig now nowStr rest c l f w hmem hp hne
      | some fw0 =>
        obtain ⟨f0, w0⟩ := fw0
        simp only [importLoop, hp0]
        cases he0 : translationExists orig f0 w0 with
        | true =>
          rw [if_pos rfl]
          exact mem_importLoop_of_fresh orig now nowStr rest c l f w hmem hp hne
        | false =>
          rw [if_neg (by simp [he0])]
          obtain ⟨r, hr, hprops⟩ :=
            mem_importLoop_of_fresh orig now nowStr rest (c + 1) l f w hmem hp hne
          exact ⟨r, List.mem_cons_of_mem _ hr, hprops⟩

/-- Every record pushed by the import loop is a fresh pending record whose
pair was parsed from one of the rows and was absent from the committed
store. -/
theorem of_mem_importLoop (orig : List Translation) (now : Nat) (nowStr : String) :
    ∀ (lines : List String) (c : Nat) (t : Translation),
      t ∈ importLoop orig now nowStr lines c →
      t.status = "pending" ∧ t.originalWolof = t.wolof ∧ t.lastUpdated = nowStr ∧
        t.validatedBy = none ∧
        (∃ l ∈ lines, parseCSVLine l = some (t.french, t.wolof)) ∧
        translationExists orig t.french t.wolof = false
  | [], _, t, ht => absurd ht (List.not_mem_nil t)
  | l0 :: rest, c, t, ht => by
    cases hp0 : parseCSVLine l0 with
    | none =>
      simp only [importLoop, hp0] at ht
      obtain ⟨h1, h2, h3, h4, ⟨l, hl, hparse⟩, h6⟩ :=
        of_mem_importLoop orig now nowStr rest c t ht
      exact ⟨h1, h2, h3, h4, ⟨l, List.mem_cons_of_mem _ hl, hparse⟩, h6⟩
    | some fw0 =>
      obtain ⟨f0, w0⟩ := fw0
      cases he0 : translationExists orig f0 w0 with
      | true =>
        simp only [importLoop, hp0] at ht
        rw [if_pos he0] at ht
        obtain ⟨h1, h2, h3, h4, ⟨l, hl, hparse⟩, h6⟩ :=
          of_mem_importLoop orig now nowStr rest c t ht
        exact ⟨h1, h2, h3, h4, ⟨l, List.mem_cons_of_mem _ hl, hparse⟩, h6⟩
      | false =>
        simp only [importLoop, hp0] at ht
        rw [if_neg (by simp [he0])] at ht
        rcases List.mem_cons.mp ht with rfl | hmem
        · exact ⟨rfl, rfl, rfl, rfl, ⟨l0, List.mem_cons_self _ _, hp0⟩, he0⟩
        · obtain ⟨h1, h2, h3, h4, ⟨l, hl, hparse⟩, h6⟩ :=
            of_mem_importLoop orig now nowStr rest (c + 1) t hmem
          exact ⟨h1, h2, h3, h4, ⟨l, List.mem_cons_of_mem _ hl, hparse⟩, h6⟩

end BrowserDb

/-! ## Lemmas about the SQLite import loop -/

namespace SqliteDb

/-- The insert-or-ignore loop only appends rows. -/
theorem sqImportLoop_shape (nowStr : String) :
    ∀ (lines : List String) (st : SqState),
      ∃ added, (importLoop nowStr lines st).recs = st.recs ++ added
  | [], st => ⟨[], (List.append_nil _).symm⟩
  | l :: rest, st => by
    cases hp : parseCSVLine l with
    | none =>
      simp only [importLoop, hp]
      exact sqImportLoop_shape nowStr rest st
    | some fw =>
      obtain ⟨f, w⟩ := fw
      simp only [importLoop, hp]
      cases he : BrowserDb.translationExists st.recs f w with
      | true =>
        rw [if_pos rfl]
        exact sqImportLoop_shape nowStr rest st
      | false =>
        rw [if_neg (by simp [he])]
        obtain ⟨added, hadded⟩ := sqImportLoop_shape nowStr rest
          { recs := st.recs ++ [mkImportedRecord st.nextId f w nowStr],
            nextId := st.nextId + 1 }
        exact ⟨mkImportedRecord st.nextId f w nowStr :: added, by
          rw [hadded]; simp⟩

/-- After one SQLite import, every `(french, wolof)` pair parsed from some
row of `lines` is present in the table. -/
theorem sqTranslationExists_after_importLoop (nowStr : String) :
    ∀ (lines : List String) (st : SqState) (l f w : String),
      l ∈ lines → parseCSVLine l = some (f, w) →
      BrowserDb.translationExists (importLoop nowStr lines st).recs f w = true
  | [], _, l, _, _, hl, _ => absurd hl (List.not_mem_nil l)
  | l0 :: rest, st, l, f, w, hl, hp => by
    rcases List.mem_cons.mp hl with rfl | hmem
    · simp only [importLoop, hp]
      cases he : BrowserDb.translationExists st.recs f w with
      | true =>
        rw [if_pos rfl]
        obtain ⟨added, hadded⟩ := sqImportLoop_shape nowStr rest st
        rw [hadded]
        exact translationExists_append_left _ he
      | false =>
        rw [if_neg (by simp [he])]
        obtain ⟨added, hadded⟩ := sqImportLoop_shape nowStr rest
          { recs := st.recs ++ [mkImportedRecord st.nextId f w nowStr],
            nextId := st.nextId + 1 }
        rw [hadded]
        exact translationExists_append_left _
          (translationExists_append_right st.recs
            (translationExists_of_mem (List.mem_cons_self _ _) rfl rfl))
    · cases hp0 : parseCSVLine l0 with
      | none =>
        simp only [importLoop, hp0]
        exact sqTranslationExists_after_importLoop nowStr rest st l f w hmem hp
      | some fw0 =>
        obtain ⟨f0, w0⟩ := fw0
        simp only [importLoop, hp0]
        cases he0 : BrowserDb.translationExists st.recs f0 w0 with
        | true =>
          rw [if_pos rfl]
          exact sqTranslationExists_after_importLoop nowStr rest st l f w hmem hp
        | false =>
          rw [if_neg (by simp [he0])]
          exact sqTranslationExists_after_importLoop nowStr rest _ l f w hmem hp

/-- If every row of `lines` that parses to a pair is already in the table,
the insert-or-ignore loop leaves the state untouched. -/
theorem importLoop_id_of_all_exists (nowStr : String) :
    ∀ (lines : List String) (st : SqState),
      (∀ l ∈ lines, ∀ f w, parseCSVLine l = some (f, w) →
        BrowserDb.translationExists st.recs f w = true) →
      importLoop nowStr lines st = st
  | [], _, _ => rfl
  | l :: rest, st, h => by
    have hrest := fun l' hl' => h l' (List.mem_cons_of_mem _ hl')
    cases hp : parseCSVLine l with
    | none =>
      simp only [importLoop, hp]
      exact importLoop_id_of_all_exists nowStr rest st hrest
    | some fw =>
      obtain ⟨f, w⟩ := fw
      simp only [importLoop, hp]
      rw [if_pos (h l (List.mem_cons_self _ _) f w hp)]
      exact importLoop_id_of_all_exists nowStr rest st hrest

end SqliteDb

/-! ## Lemmas about the IndexedDB import loop -/

namespace Db

/-- The unconditional-add loop only appends rows. -/
theorem dbImportLoop_shape (nowStr : String) :
    ∀ (lines : List String) (st : DbState),
      ∃ added, (importLoop nowStr lines st).recs = st.recs ++ added
  | [], st => ⟨[], (List.append_nil _).symm⟩
  | l :: rest, st => by
    cases hp : parseCSVLine l with
    | none =>
      simp only [importLoop, hp]
      exact dbImportLoop_shape nowStr rest st
    | some fw =>
      obtain ⟨f, w⟩ := fw
      simp only [importLoop, hp]
      obtain ⟨added, hadded⟩ := dbImportLoop_shape nowStr rest
        { recs := st.recs ++ [mkImportedRecord st.nextId f w nowStr],
          nextId := st.nextId + 1 }
      exact ⟨mkImportedRecord st.nextId f w nowStr :: added, by rw [hadded]; simp⟩

end Db

/-! ## Lemmas about the shared update skeleton -/

/-- When no record carries the requested id, the lookup fails. -/
theorem updateById_eq_none (id : Nat) (u : TranslationUpdates) (s : String) :
    ∀ (store : List Translation), (∀ t ∈ store, t.id ≠ id) →
      updateById id u s store = none
  | [], _ => rfl
  | t :: rest, h => by
    have hrest :=
      updateById_eq_none id u s rest (fun t' ht' => h t' (List.mem_cons_of_mem _ ht'))
    simp only [updateById, if_neg (h t (List.mem_cons_self t rest)), hrest]

/-- A successful update permutes no records and changes no id: the list of
ids (with positions) is untouched. -/
theorem updateById_map_id (id : Nat) (u : TranslationUpdates) (s : String) :
    ∀ (store store' : List Translation) (upd : Translation),
      updateById id u s store = some (store', upd) →
      store'.map Translation.id = store.map Translation.id
  | [], _, _, h => by simp [updateById] at h
  | t :: rest, store', upd, h => by
    by_cases ht : t.id = id
    · simp only [updateById, if_pos ht] at h
      cases h
      simp [applyUpdates]
    · simp only [updateById, if_neg ht] at h
      cases hr : updateById id u s rest with
      | none =>
        simp only [hr] at h
        exact Option.noConfusion h
      | some p =>
        obtain ⟨rest', upd'⟩ := p
        simp only [hr, Option.some.injEq, Prod.mk.injEq] at h
        obtain ⟨h1, h2⟩ := h
        subst h1
        simp [updateById_map_id id u s rest rest' upd' hr]

/-- When the first record carrying the requested id sits at position `i`,
the update replaces exactly that position by the merged record. -/
theorem updateById_spec (id : Nat) (u : TranslationUpdates) (s : String) :
    ∀ (store : List Translation) (i : Nat) (hi : i < store.length),
      (store.get ⟨i, hi⟩).id = id →
      (∀ j (hj : j < i), (store.get ⟨j, hj.trans hi⟩).id ≠ id) →
      updateById id u s store
        = some (store.set i (applyUpdates (store.get ⟨i, hi⟩) u s),
            applyUpdates (store.get ⟨i, hi⟩) u s)
  | [], i, hi, _, _ => absurd hi (by simp)
  | t :: rest, 0, hi, hid, _ => by
    have hid' : t.id = id := hid
    simp only [updateById, if_pos hid']
    rfl
  | t :: rest, i + 1, hi, hid, hfirst => by
    have ht : t.id ≠ id := hfirst 0 (Nat.succ_pos i)
    have hi' : i < rest.length := Nat.lt_of_succ_lt_succ hi
    have hid2 : (rest.get ⟨i, hi'⟩).id = id := hid
    have hfirst2 : ∀ j (hj : j < i), (rest.get ⟨j, hj.trans hi'⟩).id ≠ id :=
      fun j hj => hfirst (j + 1) (Nat.succ_lt_succ hj)
    simp only [updateById, if_neg ht,
      updateById_spec id u s rest i hi' hid2 hfirst2]
    rfl

/-! ## Lemmas about the user seeding -/

namespace BrowserDb

theorem initUserStep_of_present (now : Nat) (users : List User) (name : String)
    (h : users.any (fun u => u.name = name) = true) :
    initUserStep now users name = users := by
  unfold initUserStep
  rw [if_pos h]

theorem initUserStep_any (now : Nat) (users : List User) (name m : String)
    (h : users.any (fun u => u.name = m) = true) :
    (initUserStep now users name).any (fun u => u.name = m) = true := by
  unfold initUserStep
  cases hc : users.any (fun u => u.name = name) with
  | true => rw [if_pos rfl]; exact h
  | false => rw [if_neg (by simp)]; rw [List.any_append, h, Bool.true_or]

theorem initUserStep_self (now : Nat) (users : List User) (name : String) :
    (initUserStep now users name).any (fun u => u.name = name) = true := by
  unfold initUserStep
  cases hc : users.any (fun u => u.name = name) with
  | true => rw [if_pos rfl]; exact hc
  | false =>
    rw [if_neg (by simp)]
    rw [List.any_append]
    simp

theorem initUserStep_shape (now : Nat) (users : List User) (name : String) :
    ∃ added, initUserStep now users name = users ++ added
      ∧ ∀ u ∈ added, u.name = name ∧ users.any (fun v => v.name = name) = false := by
  unfold initUserStep
  cases hc : users.any (fun u => u.name = name) with
  | true =>
    rw [if_pos rfl]
    exact ⟨[], by simp⟩
  | false =>
    rw [if_neg (by simp)]
    refine ⟨[{ id := now + users.length, name }], rfl, ?_⟩
    intro u hu
    rcases List.mem_singleton.mp hu with rfl
    exact ⟨rfl, rfl⟩

/-- After seeding, the three default names are present. -/
theorem initUsers_all_present (users : List User) (now : Nat) :
    ∀ name ∈ defaultUsers, (initUsers users now).any (fun u => u.name = name) = true := by
  intro name hname
  have : name = "Alwaly" ∨ name = "Serge" ∨ name = "Matar" := by
    simpa [defaultUsers] using hname
  simp only [initUsers, defaultUsers, List.foldl]
  rcases this with rfl | rfl | rfl
  · exact initUserStep_any _ _ _ _
      (initUserStep_any _ _ _ _ (initUserStep_self _ _ _))
  · exact initUserStep_any _ _ _ _ (initUserStep_self _ _ _)
  · exact initUserStep_self _ _ _

/-- Seeding a roster in which the three default names are already present
changes nothing. -/
theorem initUsers_id_of_all_present (users : List User) (now : Nat)
    (h : ∀ name ∈ defaultUsers, users.any (fun u => u.name = name) = true) :
    initUsers users now = users := by
  simp only [initUsers, defaultUsers, List.foldl]
  rw [initUserStep_of_present _ _ _ (h "Alwaly" (by simp [defaultUsers])),
    initUserStep_of_present _ _ _ (h "Serge" (by simp [defaultUsers])),
    initUserStep_of_present _ _ _ (h "Matar" (by simp [defaultUsers]))]

/-- Seeding only appends records, each carrying a default name that was
absent from the starting roster. -/
theorem initUsers_shape (users : List User) (now : Nat) :
    ∃ added, initUsers users now = users ++ added
      ∧ ∀ u ∈ added, u.name ∈ defaultUsers
          ∧ users.any (fun v => v.name = u.name) = false := by
  simp only [initUsers, defaultUsers, List.foldl]
  obtain ⟨a1, h1, p1⟩ := initUserStep_shape now users "Alwaly"
  rw [h1]
  obtain ⟨a2, h2, p2⟩ := initUserStep_shape now (users ++ a1) "Serge"
  rw [h2]
  obtain ⟨a3, h3, p3⟩ := initUserStep_shape now ((users ++ a1) ++ a2) "Matar"
  rw [h3]
  refine ⟨a1 ++ a2 ++ a3, by simp, ?_⟩
  intro u hu
  have habs : ∀ m, (users ++ a1).any (fun v => v.name = m) = false →
      users.any (fun v => v.name = m) = false := by
    intro m hm
    cases hx : users.any (fun v => v.name = m) with
    | false => rfl
    | true =>
      rw [List.any_append, hx, Bool.true_or] at hm
      exact absurd hm (by simp)
  have habs2 : ∀ m, ((users ++ a1) ++ a2).any (fun v => v.name = m) = false →
      (users ++ a1).any (fun v => v.name = m) = false := by
    intro m hm
    cases hx : (users ++ a1).any (fun v => v.name = m) with
    | false => rfl
    | true =>
      rw [List.any_append, hx, Bool.true_or] at hm
      exact absurd hm (by simp)
  rcases List.mem_append.mp hu with hu' | hu3
  · rcases List.mem_append.mp hu' with hu1 | hu2
    · obtain ⟨hn, hf⟩ := p1 u hu1
      exact ⟨by simp [defaultUsers, hn], by rw [hn]; exact hf⟩
    · obtain ⟨hn, hf⟩ := p2 u hu2
      exact ⟨by simp [defaultUsers, hn], by rw [hn]; exact habs _ hf⟩
  · obtain ⟨hn, hf⟩ := p3 u hu3
    exact ⟨by simp [defaultUsers, hn], by rw [hn]; exact habs _ (habs2 _ hf)⟩

end BrowserDb

/-! ## Lemmas about the CSV export -/

theorem string_join_cons (a : String) (l : List String) :
    String.join (a :: l) = a ++ String.join l := by
  cases a with
  | mk data =>
    rw [String.join_eq, String.join_eq]
    rfl

/-- The serialised row of the export loop, in closed form. -/
theorem exportRow_eq_intercalate (t : Translation) :
    String.intercalate ","
        ["\"" ++ t.wolof ++ "\"", "\"" ++ t.french ++ "\"", t.status,
          t.validatedBy.getD "", t.correctedBy.getD "", t.lastUpdated] ++ "\n"
      = exportRow t := by
  apply String.ext
  simp [String.intercalate, String.intercalate.go, exportRow, String.data_append]

theorem foldl_append_join (g : Translation → String) :
    ∀ (l : List Translation) (acc : String),
      l.foldl (fun c t => c ++ g t) acc = acc ++ String.join (l.map g)
  | [], acc => by
    simp [String.join]
  | t :: rest, acc => by
    simp only [List.foldl_cons, List.map_cons, string_join_cons]
    rw [foldl_append_join g rest (acc ++ g t), String.append_assoc]

/-- The export is the header followed by the concatenation of one
serialised row per validated record. -/
theorem exportCSVOf_eq (validated : List Translation) :
    exportCSVOf validated
      = "Wolof,French,Status,ValidatedBy,CorrectedBy,LastUpdated\n"
        ++ String.join (validated.map exportRow) := by
  unfold exportCSVOf
  have hfun : (fun (csvContent : String) (t : Translation) =>
      csvContent ++
        String.intercalate ","
          ["\"" ++ t.wolof ++ "\"", "\"" ++ t.french ++ "\"", t.status,
            t.validatedBy.getD "", t.correctedBy.getD "", t.lastUpdated] ++ "\n")
      = fun (c : String) (t : Translation) => c ++ exportRow t := by
    funext c t
    rw [String.append_assoc, exportRow_eq_intercalate]
  rw [hfun, foldl_append_join]

/-- None of a record's serialised fields contains a newline character. -/
def newlineFree (t : Translation) : Prop :=
  '\n' ∉ t.wolof.data ∧ '\n' ∉ t.french.data ∧ '\n' ∉ t.status.data ∧
    '\n' ∉ (t.validatedBy.getD "").data ∧ '\n' ∉ (t.correctedBy.getD "").data ∧
    '\n' ∉ t.lastUpdated.data

instance (t : Translation) : Decidable (newlineFree t) := by
  unfold newlineFree
  infer_instance

theorem count_exportRow (t : Translation) (h : newlineFree t) :
    (exportRow t).data.count '\n' = 1 := by
  obtain ⟨h1, h2, h3, h4, h5, h6⟩ := h
  have hq : ("\"" : String).data.count '\n' = 0 := by decide
  have hc : ("," : String).data.count '\n' = 0 := by decide
  have hn : ("\n" : String).data.count '\n' = 1 := by decide
  simp [exportRow, String.data_append, List.count_append, hq, hc, hn,
    List.count_eq_zero.mpr h1, List.count_eq_zero.mpr h2, List.count_eq_zero.mpr h3,
    List.count_eq_zero.mpr h4, List.count_eq_zero.mpr h5, List.count_eq_zero.mpr h6]

theorem count_join_rows :
    ∀ (validated : List Translation),
      (∀ t ∈ validated, newlineFree t) →
      (String.join (validated.map exportRow)).data.count '\n' = validated.length
  | [], _ => rfl
  | t :: rest, h => by
    rw [List.map_cons, string_join_cons, String.data_append, List.count_append,
      count_exportRow t (h t (List.mem_cons_self _ _)),
      count_join_rows rest (fun t' ht' => h t' (List.mem_cons_of_mem _ ht'))]
    simp [Nat.add_comm]

/-! ## Helper for the random-pending operation -/

theorem getRandomPending_eq_get (store : List Translation) (k : Nat)
    (hk : k < (BrowserDb.pendingOf store).length) :
    BrowserDb.getRandomPendingTranslation store k
      = some ((BrowserDb.pendingOf store).get ⟨k, hk⟩) := by
  simp only [BrowserDb.getRandomPendingTranslation]
  rw [if_neg (Nat.not_eq_zero_of_lt hk)]
  rw [List.getElem?_eq_getElem hk]
  simp [List.get_eq_getElem]

/-! ## The claims -/

/-- C1 (amended): the query operations — `getAllTranslations`,
`getRandomPendingTranslation` (given the same random draw),
`isDatabaseEmpty`, `getValidatedTranslations`,
`exportValidatedTranslationsToCSV` — of the IndexedDB, localStorage and
SQLite backends produce the same observable results on the same stored
records. (The backends are *not* equivalent on import and update; see the
counterexample and claims C2/C3.) -/
theorem claim1_query_equivalence (recs : List Translation) (n1 n2 : Nat) (k : Nat) :
    Db.getAllTranslations { recs := recs, nextId := n1 }
        = BrowserDb.getAllTranslations recs
    ∧ SqliteDb.getAllTranslations { recs := recs, nextId := n2 }
        = BrowserDb.getAllTranslations recs
    ∧ Db.getRandomPendingTranslation { recs := recs, nextId := n1 } k
        = BrowserDb.getRandomPendingTranslation recs k
    ∧ SqliteDb.getRandomPendingTranslation { recs := recs, nextId := n2 } k
        = BrowserDb.getRandomPendingTranslation recs k
    ∧ Db.isDatabaseEmpty { recs := recs, nextId := n1 } = BrowserDb.isDatabaseEmpty recs
    ∧ SqliteDb.isDatabaseEmpty { recs := recs, nextId := n2 } = BrowserDb.isDatabaseEmpty recs
    ∧ Db.getValidatedTranslations { recs := recs, nextId := n1 }
        = BrowserDb.getValidatedTranslations recs
    ∧ SqliteDb.getValidatedTranslations { recs := recs, nextId := n2 }
        = BrowserDb.getValidatedTranslations recs
    ∧ Db.exportValidatedTranslationsToCSV { recs := recs, nextId := n1 }
        = BrowserDb.exportValidatedTranslationsToCSV recs
    ∧ SqliteDb.exportValidatedTranslationsToCSV { recs := recs, nextId := n2 }
        = BrowserDb.exportValidatedTranslationsToCSV recs :=
  ⟨rfl, rfl, rfl, rfl, rfl, rfl, rfl, rfl, rfl, rfl⟩

/-- C1 (witness): the equivalence instantiated at a one-record store. -/
theorem claim1_witness :
    Db.getRandomPendingTranslation
        { recs := [⟨1, "f", "w", "pending", none, none, false, "w", "T"⟩], nextId := 2 } 0
      = BrowserDb.getRandomPendingTranslation
          [⟨1, "f", "w", "pending", none, none, false, "w", "T"⟩] 0 :=
  (claim1_query_equivalence [⟨1, "f", "w", "pending", none, none, false, "w", "T"⟩] 2 2 0).2.2.1

/-- C1 (counterexample): the backends are not observationally equivalent:
an import of a CSV whose two data rows carry the same pair into an empty
store yields two records in the localStorage backend (whose duplicate
check only consults the store committed before the call) but one in the
SQLite backend (`INSERT OR IGNORE` checks the live table). -/
theorem claim1_counterexample :
    (BrowserDb.getAllTranslations
        (BrowserDb.importTranslationsFromCSV [] "Wolof,French\nx,y\nx,y" 0 "T")).length
      ≠ (SqliteDb.getAllTranslations
          (SqliteDb.importTranslationsFromCSV SqliteDb.emptyState "Wolof,French\nx,y\nx,y" "T")).length := by
  decide

/-- C2 (amended): import is idempotent for the localStorage and SQLite
backends: importing the same CSV text a second time leaves the store
exactly as it was (hence the same record count), because every row's
`(french, wolof-at-import-time)` pair is already present and is silently
skipped. (The IndexedDB backend performs no duplicate check; see the
counterexample.) -/
theorem claim2_import_idempotent (store : List Translation) (st : SqliteDb.SqState)
    (csv : String) (n1 n2 : Nat) (s1 s2 s3 s4 : String) :
    BrowserDb.importTranslationsFromCSV
        (BrowserDb.importTranslationsFromCSV store csv n1 s1) csv n2 s2
      = BrowserDb.importTranslationsFromCSV store csv n1 s1
    ∧ SqliteDb.importTranslationsFromCSV
        (SqliteDb.importTranslationsFromCSV st csv s3) csv s4
      = SqliteDb.importTranslationsFromCSV st csv s3 := by
  constructor
  · show BrowserDb.importTranslationsFromCSV
        (store ++ BrowserDb.importLoop store n1 s1 ((jsSplit '\n' csv).drop 1) 0) csv n2 s2
      = store ++ BrowserDb.importLoop store n1 s1 ((jsSplit '\n' csv).drop 1) 0
    unfold BrowserDb.importTranslationsFromCSV
    rw [BrowserDb.importLoop_nil_of_all_exists _ n2 s2 _ 0
      (fun l hl f w hp =>
        BrowserDb.translationExists_after_importLoop store n1 s1 _ 0 l f w hl hp),
      List.append_nil]
  · exact SqliteDb.importLoop_id_of_all_exists s4 _ _
      (fun l hl f w hp =>
        SqliteDb.sqTranslationExists_after_importLoop s3 _ st l f w hl hp)

/-- C2 (witness): idempotence at a concrete CSV and empty stores. -/
theorem claim2_witness :
    BrowserDb.importTranslationsFromCSV
        (BrowserDb.importTranslationsFromCSV [] "Wolof,French\nsalam,bonjour" 0 "T1")
        "Wolof,French\nsalam,bonjour" 9 "T2"
      = BrowserDb.importTranslationsFromCSV [] "Wolof,French\nsalam,bonjour" 0 "T1" :=
  (claim2_import_idempotent [] SqliteDb.emptyState "Wolof,French\nsalam,bonjour"
    0 9 "T1" "T2" "T1" "T2").1

/-- C2 (counterexample): the IndexedDB backend (`db.js`) inserts without
any duplicate check, so importing the same CSV twice does *not* leave the
same record count as importing it once. -/
theorem claim2_counterexample :
    (Db.importTranslationsFromCSV
        (Db.importTranslationsFromCSV Db.emptyState "Wolof,French\nsalam,bonjour" "T1")
        "Wolof,French\nsalam,bonjour" "T2").recs.length
      ≠ (Db.importTranslationsFromCSV Db.emptyState "Wolof,French\nsalam,bonjour" "T1").recs.length := by
  decide

/-- C3 (amended): in the localStorage and SQLite backends, `updateTranslation`
on an id that no record carries throws `Translation with ID <id> not found`
and the store is returned unchanged. (The IndexedDB backend does not fail:
it inserts a new record assembled from the partial fields; see the
counterexample.) -/
theorem claim3_update_unknown_id (store : List Translation) (st : SqliteDb.SqState)
    (id : Nat) (u : TranslationUpdates) (s1 s2 : String)
    (h1 : ∀ t ∈ store, t.id ≠ id) (h2 : ∀ t ∈ st.recs, t.id ≠ id) :
    BrowserDb.updateTranslation store id u s1
        = (store, Except.error ("Translation with ID " ++ toString id ++ " not found"))
      ∧ SqliteDb.updateTranslation st id u s2
        = (st, Except.error ("Translation with ID " ++ toString id ++ " not found")) := by
  constructor
  · simp only [BrowserDb.updateTranslation, updateById_eq_none id u s1 store h1]
  · simp only [SqliteDb.updateTranslation, updateById_eq_none id u s2 st.recs h2]

/-- C3 (witness): the NotFound failure at id 5 on empty stores. -/
theorem claim3_witness :
    BrowserDb.updateTranslation [] 5 {} "T"
        = ([], Except.error ("Translation with ID " ++ toString 5 ++ " not found"))
      ∧ SqliteDb.updateTranslation SqliteDb.emptyState 5 {} "T2"
        = (SqliteDb.emptyState, Except.error ("Translation with ID " ++ toString 5 ++ " not found")) :=
  claim3_update_unknown_id [] SqliteDb.emptyState 5 {} "T" "T2" (by simp) (by decide)

/-- C3 (counterexample): in the IndexedDB backend, `updateTranslation` on
an unknown id does not fail and does not leave the store unchanged — the
spread over `undefined` produces an object holding only the partial fields
and `put` inserts it as a new record. -/
theorem claim3_counterexample :
    (Db.updateTranslation Db.emptyState 5
        { status := some "validated", validatedBy := some "Alwaly" } "T").1
      ≠ Db.emptyState := by
  decide

/-- C4: `getRandomPendingTranslation` returns an absent result exactly
when no record has `status = "pending"`; with `N > 0` pending records and
the random draw modelled as a uniformly distributed index `k < N`, it
returns the pending record at position `k`, and (for pairwise-distinct
pending records) each pending record is selected by exactly one of the `N`
equally likely draws — probability `1/N`, with no weighting by any field. -/
theorem claim4_random_pending_uniform (store : List Translation) :
    (BrowserDb.pendingOf store = [] →
      ∀ k, BrowserDb.getRandomPendingTranslation store k = none)
    ∧ (∀ k (hk : k < (BrowserDb.pendingOf store).length),
        BrowserDb.getRandomPendingTranslation store k
          = some ((BrowserDb.pendingOf store).get ⟨k, hk⟩))
    ∧ ((BrowserDb.pendingOf store).Nodup →
        ∀ i (hi : i < (BrowserDb.pendingOf store).length),
          ((Finset.range (BrowserDb.pendingOf store).length).filter
              (fun k => BrowserDb.getRandomPendingTranslation store k
                = some ((BrowserDb.pendingOf store).get ⟨i, hi⟩))).card = 1) := by
  refine ⟨?_, ?_, ?_⟩
  · intro hpend k
    simp [BrowserDb.getRandomPendingTranslation, hpend]
  · intro k hk
    exact getRandomPending_eq_get store k hk
  · intro hnodup i hi
    have hset : (Finset.range (BrowserDb.pendingOf store).length).filter
        (fun k => BrowserDb.getRandomPendingTranslation store k
          = some ((BrowserDb.pendingOf store).get ⟨i, hi⟩)) = {i} := by
      ext k
      simp only [Finset.mem_filter, Finset.mem_range, Finset.mem_singleton]
      constructor
      · rintro ⟨hk, heq⟩
        rw [getRandomPending_eq_get store k hk, Option.some.injEq,
          List.get_eq_getElem, List.get_eq_getElem] at heq
        exact (hnodup.getElem_inj_iff).mp heq
      · intro hki
        constructor
        · omega
        · rw [hki]
          exact getRandomPending_eq_get store i hi
    rw [hset, Finset.card_singleton]

/-- C4 (witness): at a two-record pending store, draw 1 selects the second
record and the first record is selected by exactly one draw. -/
theorem claim4_witness :
    BrowserDb.getRandomPendingTranslation
        [⟨1, "f1", "w1", "pending", none, none, false, "w1", "T"⟩,
          ⟨2, "f2", "w2", "pending", none, none, false, "w2", "T"⟩] 1
      = some ⟨2, "f2", "w2", "pending", none, none, false, "w2", "T"⟩
    ∧ ((Finset.range (BrowserDb.pendingOf
          [⟨1, "f1", "w1", "pending", none, none, false, "w1", "T"⟩,
            ⟨2, "f2", "w2", "pending", none, none, false, "w2", "T"⟩]).length).filter
        (fun k => BrowserDb.getRandomPendingTranslation
            [⟨1, "f1", "w1", "pending", none, none, false, "w1", "T"⟩,
              ⟨2, "f2", "w2", "pending", none, none, false, "w2", "T"⟩] k
          = some ((BrowserDb.pendingOf
              [⟨1, "f1", "w1", "pending", none, none, false, "w1", "T"⟩,
                ⟨2, "f2", "w2", "pending", none, none, false, "w2", "T"⟩]).get
                ⟨0, by decide⟩))).card = 1 :=
  ⟨(claim4_random_pending_uniform _).2.1 1 (by decide),
    (claim4_random_pending_uniform _).2.2 (by decide) 0 (by decide)⟩

/-- C5: on a store whose first record carrying `id` sits at position `i`,
`updateTranslation(id, updates)` replaces exactly that record by the merge:
each named field takes the given value, `lastUpdated` is refreshed, every
unnamed field (including `id` and `originalWolof`) keeps its previous
value, and every other position of the store is untouched. -/
theorem claim5_update_merge_frame (store : List Translation) (id : Nat)
    (u : TranslationUpdates) (s : String) (i : Nat) (hi : i < store.length)
    (hid : (store.get ⟨i, hi⟩).id = id)
    (hfirst : ∀ j (hj : j < i), (store.get ⟨j, hj.trans hi⟩).id ≠ id) :
    BrowserDb.updateTranslation store id u s
        = (store.set i (applyUpdates (store.get ⟨i, hi⟩) u s),
            Except.ok (applyUpdates (store.get ⟨i, hi⟩) u s))
      ∧ (∀ t, (applyUpdates t u s).french = u.french.getD t.french
          ∧ (applyUpdates t u s).wolof = u.wolof.getD t.wolof
          ∧ (applyUpdates t u s).status = u.status.getD t.status
          ∧ (applyUpdates t u s).validatedBy
              = (match u.validatedBy with | some v => some v | none => t.validatedBy)
          ∧ (applyUpdates t u s).correctedBy
              = (match u.correctedBy with | some v => some v | none => t.correctedBy)
          ∧ (applyUpdates t u s).hasBeenCorrected
              = u.hasBeenCorrected.getD t.hasBeenCorrected
          ∧ (applyUpdates t u s).id = t.id
          ∧ (applyUpdates t u s).originalWolof = t.originalWolof
          ∧ (applyUpdates t u s).lastUpdated = s)
      ∧ (∀ j (hj : j < store.length), j ≠ i →
          (store.set i (applyUpdates (store.get ⟨i, hi⟩) u s)).get
              ⟨j, by simpa using hj⟩ = store.get ⟨j, hj⟩) := by
  refine ⟨?_, ?_, ?_⟩
  · simp only [BrowserDb.updateTranslation, updateById_spec id u s store i hi hid hfirst]
  · intro t
    exact ⟨rfl, rfl, rfl, rfl, rfl, rfl, rfl, rfl, rfl⟩
  · intro j hj hne
    simp [List.get_eq_getElem, List.getElem_set_ne (Ne.symm hne)]

/-- C5 (witness): validating a concrete record merges exactly the named
fields and refreshes `lastUpdated`. -/
theorem claim5_witness :
    BrowserDb.updateTranslation
        [⟨2, "f2", "w2", "pending", none, none, false, "w2", "T0"⟩] 2
        { status := some "validated", validatedBy := some "Alwaly" } "T9"
      = ([⟨2, "f2", "w2", "validated", some "Alwaly", none, false, "w2", "T9"⟩],
          Except.ok ⟨2, "f2", "w2", "validated", some "Alwaly", none, false, "w2", "T9"⟩) :=
  (claim5_update_merge_frame
    [⟨2, "f2", "w2", "pending", none, none, false, "w2", "T0"⟩] 2
    { status := some "validated", validatedBy := some "Alwaly" } "T9" 0
    (by decide) (by decide)
    (fun j hj => absurd hj (Nat.not_lt_zero j))).1

/-- C6: `importTranslationsFromCSV` drops line 1 (the header) of the
newline-split text; a row inserts exactly when it parses — i.e. the trimmed
line is nonblank, splits on commas into at least two columns, the first
column trimmed (the wolof) and the remaining columns rejoined with commas
and trimmed (the french) are both non-empty — and its pair is not already
present; every inserted record has `status = "pending"`,
`originalWolof` equal to the imported wolof, `lastUpdated` set to the call
time and `validatedBy` null; rows failing any guard are skipped without
error. -/
theorem claim6_import_parsing (store : List Translation) (csv : String)
    (now : Nat) (nowStr : String) :
    BrowserDb.importTranslationsFromCSV store csv now nowStr
      = store ++ BrowserDb.importLoop store now nowStr ((jsSplit '\n' csv).drop 1) 0
    ∧ (∀ l f w, parseCSVLine l = some (f, w) →
        (jsSplit ',' (jsTrim l)).length ≥ 2
        ∧ w = jsTrim ((jsSplit ',' (jsTrim l)).headD "")
        ∧ f = jsTrim (String.intercalate "," (jsSplit ',' (jsTrim l)).tail)
        ∧ f ≠ "" ∧ w ≠ "" ∧ jsTrim l ≠ "")
    ∧ (∀ t ∈ BrowserDb.importLoop store now nowStr ((jsSplit '\n' csv).drop 1) 0,
        t.status = "pending" ∧ t.originalWolof = t.wolof ∧ t.lastUpdated = nowStr
        ∧ t.validatedBy = none
        ∧ (∃ l ∈ (jsSplit '\n' csv).drop 1, parseCSVLine l = some (t.french, t.wolof))
        ∧ BrowserDb.translationExists store t.french t.wolof = false)
    ∧ (∀ l ∈ (jsSplit '\n' csv).drop 1, ∀ f w, parseCSVLine l = some (f, w) →
        BrowserDb.translationExists
            (BrowserDb.importTranslationsFromCSV store csv now nowStr) f w = true) := by
  refine ⟨rfl, ?_, ?_, ?_⟩
  · intro l f w hp
    simp only [parseCSVLine] at hp
    by_cases h1 : jsTrim l = ""
    · rw [if_pos h1] at hp
      exact absurd hp (by simp)
    · rw [if_neg h1] at hp
      by_cases h2 : (jsSplit ',' (jsTrim l)).length ≥ 2
      · rw [if_pos h2] at hp
        by_cases h3 : jsTrim (String.intercalate "," (jsSplit ',' (jsTrim l)).tail) ≠ ""
            ∧ jsTrim ((jsSplit ',' (jsTrim l)).headD "") ≠ ""
        · rw [if_pos h3] at hp
          simp only [Option.some.injEq, Prod.mk.injEq] at hp
          obtain ⟨hf, hw⟩ := hp
          subst hf
          subst hw
          exact ⟨h2, rfl, rfl, h3.1, h3.2, h1⟩
        · rw [if_neg h3] at hp
          exact absurd hp (by simp)
      · rw [if_neg h2] at hp
        exact absurd hp (by simp)
  · intro t ht
    exact BrowserDb.of_mem_importLoop store now nowStr _ 0 t ht
  · intro l hl f w hp
    exact BrowserDb.translationExists_after_importLoop store now nowStr _ 0 l f w hl hp

/-- C6 (witness): the imported pair of the single data row of a concrete
CSV is present after the import. -/
theorem claim6_witness :
    BrowserDb.translationExists
        (BrowserDb.importTranslationsFromCSV [] "Wolof,French\nsalam,bonjour" 3 "T")
        "bonjour" "salam" = true :=
  (claim6_import_parsing [] "Wolof,French\nsalam,bonjour" 3 "T").2.2.2
    "salam,bonjour" (by decide) "bonjour" "salam" (by decide)

/-- C7: `exportValidatedTranslationsToCSV` returns the header line
`Wolof,French,Status,ValidatedBy,CorrectedBy,LastUpdated` followed by
exactly one row per record of `getValidatedTranslations` (one newline per
row, for newline-free fields); each row wraps the wolof and french fields
in double quotes and renders a missing `validatedBy`/`correctedBy` as the
empty string. -/
theorem claim7_export_format (store : List Translation) :
    BrowserDb.exportValidatedTranslationsToCSV store
      = "Wolof,French,Status,ValidatedBy,CorrectedBy,LastUpdated\n"
        ++ String.join ((BrowserDb.getValidatedTranslations store).map exportRow)
    ∧ (∀ t, exportRow t
        = "\"" ++ t.wolof ++ "\"" ++ "," ++ "\"" ++ t.french ++ "\"" ++ "," ++ t.status
            ++ "," ++ t.validatedBy.getD "" ++ "," ++ t.correctedBy.getD "" ++ ","
            ++ t.lastUpdated ++ "\n")
    ∧ ((∀ t ∈ BrowserDb.getValidatedTranslations store, newlineFree t) →
        (BrowserDb.exportValidatedTranslationsToCSV store).data.count '\n'
          = 1 + (BrowserDb.getValidatedTranslations store).length)
    ∧ (∀ t ∈ BrowserDb.getValidatedTranslations store, t.status = "validated") := by
  refine ⟨?_, ?_, ?_, ?_⟩
  · exact exportCSVOf_eq (BrowserDb.getValidatedTranslations store)
  · intro t
    apply String.ext
    simp [exportRow, String.data_append]
  · intro hvf
    have hh : ("Wolof,French,Status,ValidatedBy,CorrectedBy,LastUpdated\n" : String).data.count '\n'
        = 1 := by decide
    rw [show BrowserDb.exportValidatedTranslationsToCSV store
        = exportCSVOf (BrowserDb.getValidatedTranslations store) from rfl,
      exportCSVOf_eq, String.data_append, List.count_append, hh,
      count_join_rows _ hvf]
  · intro t ht
    simpa using (List.mem_filter.mp ht).2

/-- C7 (witness): the export of a one-validated-record store contains two
newlines (header plus one row). -/
theorem claim7_witness :
    (BrowserDb.exportValidatedTranslationsToCSV
        [⟨1, "bonjour", "salam", "validated", some "Alwaly", none, false, "salam", "T"⟩]).data.count '\n'
      = 1 + 1 :=
  (claim7_export_format
    [⟨1, "bonjour", "salam", "validated", some "Alwaly", none, false, "salam", "T"⟩]).2.2.1
    (by decide)

/-- C8 (amended): translation records are never deleted — in every
backend, import only appends records (those already present survive with
fields intact) and update preserves the full id sequence of the store when
the id is found and leaves every pre-existing record present otherwise;
records are mutated only by `updateTranslation`; records are created by
`importTranslationsFromCSV` — and additionally, in the IndexedDB backend,
by `updateTranslation` on an unknown id (see the counterexample). -/
theorem claim8_no_deletion (store : List Translation) (csv : String) (now : Nat)
    (nowStr s2 : String) (id : Nat) (u : TranslationUpdates)
    (st : Db.DbState) (sq : SqliteDb.SqState) :
    (∃ added, BrowserDb.importTranslationsFromCSV store csv now nowStr = store ++ added)
    ∧ (BrowserDb.updateTranslation store id u s2).1.map Translation.id
        = store.map Translation.id
    ∧ (∃ added, (Db.importTranslationsFromCSV st csv nowStr).recs = st.recs ++ added)
    ∧ (∀ j ∈ st.recs.map Translation.id,
        j ∈ (Db.updateTranslation st id u s2).1.recs.map Translation.id)
    ∧ (∃ added, (SqliteDb.importTranslationsFromCSV sq csv nowStr).recs = sq.recs ++ added)
    ∧ (SqliteDb.updateTranslation sq id u s2).1.recs.map Translation.id
        = sq.recs.map Translation.id := by
  refine ⟨⟨_, rfl⟩, ?_, Db.dbImportLoop_shape nowStr _ st, ?_,
    SqliteDb.sqImportLoop_shape nowStr _ sq, ?_⟩
  · cases hr : updateById id u s2 store with
    | none => simp [BrowserDb.updateTranslation, hr]
    | some p =>
      obtain ⟨store', upd⟩ := p
      simp [BrowserDb.updateTranslation, hr, updateById_map_id id u s2 store store' upd hr]
  · intro j hj
    cases hr : updateById id u s2 st.recs with
    | none =>
      simp only [Db.updateTranslation, hr]
      rw [List.map_append]
      exact List.mem_append_left _ hj
    | some p =>
      obtain ⟨recs', upd⟩ := p
      simp only [Db.updateTranslation, hr]
      rw [updateById_map_id id u s2 st.recs recs' upd hr]
      exact hj
  · cases hr : updateById id u s2 sq.recs with
    | none => simp [SqliteDb.updateTranslation, hr]
    | some p =>
      obtain ⟨recs', upd⟩ := p
      simp [SqliteDb.updateTranslation, hr, updateById_map_id id u s2 sq.recs recs' upd hr]

/-- C8 (witness): id preservation of update at a concrete store. -/
theorem claim8_witness :
    (BrowserDb.updateTranslation
        [⟨1, "f1", "w1", "pending", none, none, false, "w1", "T0"⟩] 1
        { status := some "validated" } "T1").1.map Translation.id
      = [⟨1, "f1", "w1", "pending", none, none, false, "w1", "T0"⟩].map Translation.id :=
  (claim8_no_deletion [⟨1, "f1", "w1", "pending", none, none, false, "w1", "T0"⟩]
    "" 0 "T0" "T1" 1 { status := some "validated" }
    Db.emptyState SqliteDb.emptyState).2.1

/-- C8 (counterexample): in the IndexedDB backend a translation record is
created by `updateTranslation` (on an unknown id), not by the import
operation — refuting "records are created only by importFromCSV". -/
theorem claim8_counterexample :
    Db.emptyState.recs = []
    ∧ (Db.updateTranslation Db.emptyState 7 { wolof := some "x" } "T2").1.recs
        = [⟨1, "", "x", "", none, none, false, "", "T2"⟩] := by
  constructor
  · rfl
  · decide

/-- C9: `initializeUsers` (modelled as `initUsers`) appends exactly the
default names `Alwaly`, `Serge`, `Matar` that are not already present,
leaves every existing user record (and any other name) untouched, makes
all three defaults present, and a second call changes nothing. -/
theorem claim9_initUsers_idempotent (users : List User) (n n2 : Nat) :
    (∃ added, BrowserDb.initUsers users n = users ++ added
        ∧ ∀ u ∈ added, u.name ∈ BrowserDb.defaultUsers
            ∧ users.any (fun v => v.name = u.name) = false)
    ∧ (∀ name ∈ BrowserDb.defaultUsers,
        (BrowserDb.initUsers users n).any (fun u => u.name = name) = true)
    ∧ BrowserDb.initUsers (BrowserDb.initUsers users n) n2 = BrowserDb.initUsers users n :=
  ⟨BrowserDb.initUsers_shape users n, BrowserDb.initUsers_all_present users n,
    BrowserDb.initUsers_id_of_all_present _ n2 (BrowserDb.initUsers_all_present users n)⟩

/-- C9 (witness): seeding a roster that already contains `Serge` twice is
the same as seeding it once. -/
theorem claim9_witness :
    BrowserDb.initUsers (BrowserDb.initUsers [⟨7, "Serge"⟩] 100) 200
      = BrowserDb.initUsers [⟨7, "Serge"⟩] 100 :=
  (claim9_initUsers_idempotent [⟨7, "Serge"⟩] 100 200).2.2

/-- C10: the localStorage duplicate check (`translationExists`) compares a
candidate pair against each record's *current* `french` and `wolof`
fields, never `originalWolof`: when a record matching the candidate only
through `(french, originalWolof)` is in the store but no record matches on
current fields, importing a row that parses to that pair inserts a second
record, leaving at least two records with the same
`(french, originalWolof)` import-time pair. -/
theorem claim10_dedup_ignores_originalWolof (store : List Translation)
    (csv l f w : String) (now : Nat) (nowStr : String) (t : Translation)
    (ht : t ∈ store) (htf : t.french = f) (hto : t.originalWolof = w)
    (hne : BrowserDb.translationExists store f w = false)
    (hl : l ∈ (jsSplit '\n' csv).drop 1) (hp : parseCSVLine l = some (f, w)) :
    2 ≤ (BrowserDb.importTranslationsFromCSV store csv now nowStr).countP
          (fun r => r.french = f ∧ r.originalWolof = w) := by
  unfold BrowserDb.importTranslationsFromCSV
  rw [List.countP_append]
  have hstore : 0 < store.countP (fun r => r.french = f ∧ r.originalWolof = w) :=
    List.countP_pos_iff.mpr ⟨t, ht, by simp [htf, hto]⟩
  have hloop : 0 < (BrowserDb.importLoop store now nowStr
      ((jsSplit '\n' csv).drop 1) 0).countP
        (fun r => r.french = f ∧ r.originalWolof = w) := by
    obtain ⟨r, hr, hrf, hrw, hro⟩ :=
      BrowserDb.mem_importLoop_of_fresh store now nowStr _ 0 l f w hl hp hne
    exact List.countP_pos_iff.mpr ⟨r, hr, by simp [hrf, hro]⟩
  omega

/-- C10 (witness): import `w1,f1`, correct the record's wolof to `w2`,
re-import the same CSV — two records for the import-time pair
`(f1, w1)` result. -/
theorem claim10_witness :
    2 ≤ (BrowserDb.importTranslationsFromCSV
          (BrowserDb.updateTranslation
            (BrowserDb.importTranslationsFromCSV [] "Wolof,French\nw1,f1" 10 "T0")
            10 { wolof := some "w2" } "T1").1
          "Wolof,French\nw1,f1" 20 "T2").countP
        (fun r => r.french = "f1" ∧ r.originalWolof = "w1") :=
  claim10_dedup_ignores_originalWolof
    (BrowserDb.updateTranslation
      (BrowserDb.importTranslationsFromCSV [] "Wolof,French\nw1,f1" 10 "T0")
      10 { wolof := some "w2" } "T1").1
    "Wolof,French\nw1,f1" "w1,f1" "f1" "w1" 20 "T2"
    ⟨10, "f1", "w2", "pending", none, none, false, "w1", "T1"⟩
    (by decide) (by decide) (by decide) (by decide) (by decide) (by decide)
